import Mathlib

/-!
Verification of the freshpage report application against its specification.

The development shallowly embeds the TypeScript source:
pure helpers (URL rewriting, date parsing/formatting, filtering, sorting)
become Lean functions over `List Char` / `String`, the stateful submission
handler becomes an explicit function from form state and a fetch outcome to
a result record, and JavaScript `Date` objects are modelled as
`Option Int` (milliseconds since the Unix epoch in UTC; `none` models an
Invalid Date, whose time value is NaN).  The host `new Date(string)` parser
for arbitrary strings is an external collaborator and is passed as an
explicit `jsParse` parameter where the code calls it; for the ISO
`YYYY-MM-DD` shape, whose parse ECMAScript pins down, a concrete model
`parseIsoDateMs` is provided.
-/

namespace Freshpage

/-! ### Character and list-of-characters utilities -/

/-- The character class `[a-zA-Z0-9_-]` used by the Google Drive/Docs
identifier regexes of `src/components/ReportList.tsx` and (negated) by the
location sanitiser `replace(/[^a-zA-Z0-9-_]/g, "_")`. -/
def isIdChar (c : Char) : Bool :=
  (('a' ≤ c && c ≤ 'z') || ('A' ≤ c && c ≤ 'Z') ||
   ('0' ≤ c && c ≤ '9') || c == '_' || c == '-')

/-- Strip a literal prefix: `some rest` when `lit` is an exact prefix of
`l`, otherwise `none` (the literal part of a regex failing to match). -/
def dropLit : List Char → List Char → Option (List Char)
  | [], l => some l
  | _ :: _, [] => none
  | a :: as, b :: bs => if a == b then dropLit as bs else none

/-- `needle` is a prefix of `hay` (JavaScript `String.prototype.startsWith`). -/
def jsStartsWith (hay needle : List Char) : Bool :=
  (dropLit needle hay).isSome

/-- `hay` contains `needle` as a contiguous substring (JavaScript
`String.prototype.includes`). -/
def jsIncludes (hay needle : List Char) : Bool :=
  jsStartsWith hay needle ||
    match hay with
    | [] => false
    | _ :: t => jsIncludes t needle

/-- Lowercasing used by the filters and the filename token
(`toLowerCase`; the source only meets ASCII data). -/
def toLowerList (l : List Char) : List Char :=
  l.map Char.toLower

/-- Lexicographic (code-unit) string order, the order JavaScript's `>=` and
`<=` use on the extracted `YYYY-MM-DD` date strings. -/
def strLeList : List Char → List Char → Bool
  | [], _ => true
  | _ :: _, [] => false
  | a :: as, b :: bs =>
    decide (a.toNat < b.toNat) || (a == b && strLeList as bs)

/-- Run a single-position regex matcher at every start position of the
input, left to right, returning the first capture — the search semantics of
an unanchored JavaScript `String.prototype.match`. -/
def scanMatch (tryAt : List Char → Option (List Char)) :
    List Char → Option (List Char)
  | [] => tryAt []
  | c :: rest =>
    match tryAt (c :: rest) with
    | some r => some r
    | none => scanMatch tryAt rest

/-! ### Download-link resolution (`ReportList.tsx`)

`getGoogleDocsPdfExportUrl` matches
`/https:\/\/docs\.google\.com\/document\/d\/([a-zA-Z0-9_-]+)\/edit/` and
`getGoogleDriveDownloadUrl` matches
`/https:\/\/drive\.google\.com\/file\/d\/([a-zA-Z0-9_-]+)\/?/`.
At a fixed start position the greedy capture `([a-zA-Z0-9_-]+)` takes the
maximal identifier run; backtracking inside the run cannot produce the
required `/` (no identifier character equals `/`), so the position matches
exactly when the maximal run is nonempty and the required literal follows
it. -/

/-- Attempt the Docs regex at one start position: literal prefix, nonempty
identifier run, then the literal `/edit`. -/
def docsTryAt (l : List Char) : Option (List Char) :=
  match dropLit ("https://docs.google.com/document/d/".toList) l with
  | none => none
  | some rest =>
    let run := rest.takeWhile isIdChar
    let rest2 := rest.dropWhile isIdChar
    if !run.isEmpty && jsStartsWith rest2 ("/edit".toList) then some run
    else none

/-- Attempt the Drive regex at one start position: literal prefix then a
nonempty identifier run (the trailing `\/?` is optional and always
succeeds). -/
def driveTryAt (l : List Char) : Option (List Char) :=
  match dropLit ("https://drive.google.com/file/d/".toList) l with
  | none => none
  | some rest =>
    let run := rest.takeWhile isIdChar
    if !run.isEmpty then some run else none

/-- The capture group of the Docs regex over the whole URL, or `none`. -/
def docsMatch (url : String) : Option (List Char) :=
  scanMatch docsTryAt url.toList

/-- The capture group of the Drive regex over the whole URL, or `none`. -/
def driveMatch (url : String) : Option (List Char) :=
  scanMatch driveTryAt url.toList

/-- `getGoogleDocsPdfExportUrl` of `ReportList.tsx`: rewrite a matching URL
to the PDF export endpoint, `null` (here `none`) otherwise. -/
def getGoogleDocsPdfExportUrl (url : String) : Option String :=
  (docsMatch url).map fun fileId =>
    "https://docs.google.com/document/d/" ++ String.mk fileId ++
      "/export?format=pdf"

/-- `getGoogleDriveDownloadUrl` of `ReportList.tsx`: rewrite a matching URL
to the direct-download endpoint, `null` (here `none`) otherwise. -/
def getGoogleDriveDownloadUrl (url : String) : Option String :=
  (driveMatch url).map fun fileId =>
    "https://drive.google.com/uc?export=download&id=" ++ String.mk fileId

/-- `downloadUrl = docsPdfUrl || directDownloadUrl || report.reportUrl`
(`ReportList.tsx`); both rewriters only ever produce nonempty, hence
truthy, strings, so `||` is exactly option fallback. -/
def resolveDownloadUrl (url : String) : String :=
  match getGoogleDocsPdfExportUrl url with
  | some u => u
  | none =>
    match getGoogleDriveDownloadUrl url with
    | some u => u
    | none => url

/-! ### A model of JavaScript dates for the ISO `YYYY-MM-DD` shape

ECMAScript parses a date-only ISO string as UTC midnight of that calendar
day; strings matching the `\d{4}-\d{2}-\d{2}` shape whose components are
not a real calendar date yield an Invalid Date (time value NaN) in every
major engine.  Days are converted with the standard civil-calendar
algorithm; the year is shifted by +400 so the computation stays in `Nat`
for the representable years 0000–9999. -/

/-- Gregorian leap year. -/
def isLeapYear (y : Nat) : Bool :=
  y % 4 == 0 && (y % 100 != 0 || y % 400 == 0)

/-- Length of month `m` (1–12) in year `y`. -/
def daysInMonth (y m : Nat) : Nat :=
  if m == 2 then (if isLeapYear y then 29 else 28)
  else if m == 4 || m == 6 || m == 9 || m == 11 then 30
  else 31

/-- Days from 1970-01-01 to `y-m-d` (proleptic Gregorian, `0 ≤ y ≤ 9999`,
valid month and day). -/
def daysFromCivil (y m d : Nat) : Int :=
  let yy := if m ≤ 2 then y + 399 else y + 400
  let era := yy / 400
  let yoe := yy % 400
  let mp := if m ≤ 2 then m + 9 else m - 3
  let doy := (153 * mp + 2) / 5 + d - 1
  let doe := yoe * 365 + yoe / 4 - yoe / 100 + doy
  (era * 146097 + doe : Int) - 865565

/-- Milliseconds since the epoch of UTC midnight on `y-m-d`. -/
def msOfYmd (y m d : Nat) : Int :=
  daysFromCivil y m d * 86400000

/-- Numeric value of an ASCII digit. -/
def digitVal (c : Char) : Nat :=
  c.toNat - 48

/-- The time value `new Date(s).getTime()` assigns to a ten-character
`YYYY-MM-DD` candidate: `some` milliseconds for a real calendar date,
`none` (Invalid Date) otherwise. -/
def parseIsoDateMs : List Char → Option Int
  | [y1, y2, y3, y4, h1, m1, m2, h2, d1, d2] =>
    if y1.isDigit && y2.isDigit && y3.isDigit && y4.isDigit &&
        h1 == '-' && m1.isDigit && m2.isDigit && h2 == '-' &&
        d1.isDigit && d2.isDigit then
      let y := ((digitVal y1 * 10 + digitVal y2) * 10 + digitVal y3) * 10 +
        digitVal y4
      let m := digitVal m1 * 10 + digitVal m2
      let d := digitVal d1 * 10 + digitVal d2
      if 1 ≤ m && m ≤ 12 && 1 ≤ d && d ≤ daysInMonth y m then
        some (msOfYmd y m d)
      else none
    else none
  | _ => none

/-- Left-pad a numeral with zeros to width `w`. -/
def padNat (w n : Nat) : String :=
  let s := toString n
  String.mk (List.replicate (w - s.length) '0') ++ s

/-- Civil date `(y, m, d)` of a day count shifted as in `daysFromCivil`
(that is, `days since the epoch + 865565`). -/
def civilFromShiftedDays (z : Nat) : Nat × Nat × Nat :=
  let era := z / 146097
  let doe := z % 146097
  let yoe := (doe - doe / 1460 + doe / 36524 - doe / 146096) / 365
  let doy := doe - (365 * yoe + yoe / 4 - yoe / 100)
  let mp := (5 * doy + 2) / 153
  let d := doy - (153 * mp + 2) / 5 + 1
  let m := if mp < 10 then mp + 3 else mp - 9
  let y := yoe + era * 400
  ((if m ≤ 2 then y + 1 else y) - 400, m, d)

/-- `format(date, "yyyy-MM-dd")` of date-fns on a valid date, with the host
timezone fixed to UTC in the embedding. -/
def fmtYmd (ms : Int) : String :=
  let z := (ms.fdiv 86400000 + 865565).toNat
  let c := civilFromShiftedDays z
  padNat 4 c.1 ++ "-" ++ padNat 2 c.2.1 ++ "-" ++ padNat 2 c.2.2

/-! ### Loosely-typed date values

The `date` field of a report can be a `Date` object, a plain object with
`from`/`to` fields (possibly after a serialization round trip), a string,
or absent.  The embedding keeps exactly the distinctions the JavaScript
checks observe: `typeof`, `in`, `instanceof Date`, truthiness, and the
Invalid Date / valid split of a `Date` time value. -/

/-- A value sitting in a `from` or `to` property. -/
inductive DField where
  /-- A `Date` instance; `none` models an Invalid Date. -/
  | dateObj (ms : Option Int)
  /-- A string value. -/
  | strVal (s : String)
  /-- The property exists with value `undefined`. -/
  | undefVal
deriving DecidableEq

/-- A plain object with optional `from` and `to` properties; `none` means
the property is absent (so the `in` operator returns false). -/
structure PairObj where
  fromField : Option DField
  toField : Option DField
deriving DecidableEq

/-- A loosely-typed date value as the components receive it. -/
inductive DVal where
  /-- A `Date` instance; `none` models an Invalid Date. -/
  | dateObj (ms : Option Int)
  /-- An object with `from`/`to` properties. -/
  | pair (p : PairObj)
  /-- A string (one of the canned options, or webhook output). -/
  | strVal (s : String)
  /-- `undefined`. -/
  | undef
deriving DecidableEq

/-- The field holds a `Date` instance (`x instanceof Date`), valid or not. -/
def isDateInstance : Option DField → Bool
  | some (.dateObj _) => true
  | _ => false

/-- The field holds a `Date` instance whose time value is not NaN: an
actual, valid instant. -/
def validInstantField : Option DField → Bool
  | some (.dateObj (some _)) => true
  | _ => false

/-- `isDateRange` of `src/utils/dateUtils.ts` (and the identical copy in
`ReportForm.tsx`): `typeof selection === "object" && selection !== null &&
"from" in selection && "to" in selection && selection.from instanceof Date
&& selection.to instanceof Date`.  A `Date` instance passes the `typeof`
check but fails `"from" in`, so only pair objects can qualify. -/
def isDateRange (v : DVal) : Bool :=
  match v with
  | .pair p => isDateInstance p.fromField && isDateInstance p.toField
  | _ => false

/-! ### Report-date parsing (`parseReportDate`, `ReportList.tsx`) -/

/-- The list starts with one of the ordinal suffixes `st`, `nd`, `rd`,
`th`. -/
def ordSuffix : List Char → Bool
  | a :: b :: _ =>
    (a == 's' && b == 't') || (a == 'n' && b == 'd') ||
      (a == 'r' && b == 'd') || (a == 't' && b == 'h')
  | _ => false

/-- `replace(/(\d+)(st|nd|rd|th)/, "$1")` scanned left to right: at the
first position where a greedy digit run is immediately followed by an
ordinal suffix, the digits are kept and the two suffix letters dropped;
only the first match is replaced (the regex has no `g` flag).  Greedy
backtracking inside a digit run cannot help, because the suffix letters are
not digits, so a position matches exactly when the suffix follows the
maximal run. -/
def stripOrdinalAux : List Char → List Char
  | [] => []
  | c :: rest =>
    if c.isDigit then
      let run := List.takeWhile Char.isDigit (c :: rest)
      let after := List.dropWhile Char.isDigit (c :: rest)
      if ordSuffix after then run ++ after.drop 2
      else c :: stripOrdinalAux rest
    else c :: stripOrdinalAux rest

/-- `date.replace(/(\d+)(st|nd|rd|th)/, "$1")` on a string. -/
def stripOrdinal (s : String) : String :=
  String.mk (stripOrdinalAux s.toList)

/-- The kinds of value `parseReportDate` receives (`Date | string |
unknown`). -/
inductive ParseInput where
  /-- A `Date` instance; `none` models an Invalid Date. -/
  | dateVal (ms : Option Int)
  /-- A string. -/
  | strVal (s : String)
  /-- Any non-`Date`, non-string value (including `undefined`). -/
  | otherVal

/-- `parseReportDate` of `ReportList.tsx`: a valid `Date` is returned as
is; a string is given to `new Date` directly and, failing that, again
after ordinal-suffix stripping; everything else (including an Invalid
Date, which fails the `!isNaN` guard) yields `null`.  `jsParse` is the
host's `new Date(string)` parser, an external collaborator. -/
def parseReportDate (jsParse : String → Option Int) :
    ParseInput → Option Int
  | .dateVal (some ms) => some ms
  | .dateVal none => none
  | .strVal s =>
    match jsParse s with
    | some ms => some ms
    | none => jsParse (stripOrdinal s)
  | .otherVal => none

/-! ### Download filename (`ReportList.tsx`) -/

/-- `report.location.replace(/[^a-zA-Z0-9-_]/g, "_")`: every character
outside the class becomes an underscore. -/
def sanitizeLocation (s : String) : String :=
  String.mk (s.toList.map fun c => if isIdChar c then c else '_')

/-- JavaScript `\s` on the character sets this source can meet (ASCII
whitespace; the Unicode space classes are irrelevant to the data here). -/
def jsSpace (c : Char) : Bool :=
  c == ' ' || c == '\t' || c == '\n' || c == '\x0d' ||
    c == '\x0b' || c == '\x0c'

/-- `replace(/\s+/g, "-")`: each maximal whitespace run becomes a single
hyphen.  The flag records whether the previous character was part of a
run already replaced. -/
def collapseSpacesAux : Bool → List Char → List Char
  | _, [] => []
  | prevSpace, c :: rest =>
    if jsSpace c then
      (if prevSpace then [] else ['-']) ++ collapseSpacesAux true rest
    else c :: collapseSpacesAux false rest

/-- `s.toLowerCase().replace(/\s+/g, "-")`, the filename token for string
dates. -/
def lowerDash (s : String) : String :=
  String.mk (collapseSpacesAux false (toLowerList s.toList))

/-- The `formattedDate` filename token of `ReportList.tsx`, tried in
source order: a non-empty string date is lowercased and dash-joined; a
pair object whose `from` property holds a `Date` instance is formatted
`yyyy-MM-dd` (date-fns `format` throws on an Invalid Date, modelled as
`none`, and no filename is produced); a `Date` instance likewise;
everything else falls back to the literal `"unknown-date"`. -/
def formattedDate (v : DVal) : Option String :=
  match v with
  | .strVal s => if s == "" then some "unknown-date" else some (lowerDash s)
  | .pair p =>
    match p.fromField with
    | some (.dateObj (some ms)) => some (fmtYmd ms)
    | some (.dateObj none) => none
    | _ => some "unknown-date"
  | .dateObj (some ms) => some (fmtYmd ms)
  | .dateObj none => none
  | .undef => some "unknown-date"

/-- ``fileName = `security-report-${formattedDate}-${safeLocation}.pdf` ``
of `ReportList.tsx`. -/
def fileName (v : DVal) (location : String) : Option String :=
  (formattedDate v).map fun fd =>
    "security-report-" ++ fd ++ "-" ++ sanitizeLocation location ++ ".pdf"

/-! ### Report submission (`handleSubmit`, `ReportForm.tsx`)

The handler is embedded as a function from the form state and the outcome
of the single `fetch` to a result record: whether the network was called,
the report passed to `onReportGenerated` (if any), the toast shown, and
the final form fields.  The `id` and `generatedAt` fields of a report come
from the client clock and are outside the model. -/

/-- The form's date selection: a `Date` from the calendar picker or a
`{from, to}` pair of `Date`s (`handleDateSelect` only ever stores real
`Date` objects, so both `isDateRange` branches in `handleSubmit` see
truthy `Date` endpoints). -/
inductive FormDate where
  /-- A single `Date` (`none` models an Invalid Date). -/
  | single (ms : Option Int)
  /-- A `{from, to}` pair of `Date`s. -/
  | range (dfrom dto : Option Int)
deriving DecidableEq

/-- The three controlled inputs of the form. -/
structure FormState where
  location : String
  date : Option FormDate
  email : String
deriving DecidableEq

/-- The parsed JSON body of the webhook response; `some s` is a field
present with string value `s`, `none` a field that is absent (or not a
string, for the `typeof` checks on `dateFrom`/`dateTo`). -/
structure WebhookResp where
  location : Option String
  email : Option String
  urlOfSecurityReport : Option String
  date : Option String
  dateFrom : Option String
  dateTo : Option String
deriving DecidableEq

/-- JavaScript truthiness of an optional string field: present and
non-empty. -/
def truthyS : Option String → Bool
  | some s => s != ""
  | none => false

/-- What the single `fetch` of `handleSubmit` does. -/
inductive FetchOutcome where
  /-- The fetch itself rejects (network error). -/
  | netError
  /-- `response.ok` is false (non-success HTTP status). -/
  | httpError
  /-- `response.json()` rejects (body is not valid JSON). -/
  | jsonError
  /-- A parsed JSON body. -/
  | ok (r : WebhookResp)

/-- Which toast `handleSubmit` shows. -/
inductive ToastKind where
  /-- "Please fill in all fields". -/
  | validationError
  /-- "Failed to generate report. Please try again or contact support...". -/
  | genericError
  /-- "Your security report has been generated.". -/
  | success
deriving DecidableEq

/-- The report record built on the success path, as `ReportList` receives
it. -/
structure GeneratedReport where
  location : String
  date : DVal
  email : String
  reportUrl : String

/-- The observable outcome of one `handleSubmit` run. -/
structure SubmitResult where
  networkCalled : Bool
  report : Option GeneratedReport
  toast : ToastKind
  locationAfter : String
  dateAfter : Option FormDate
  emailAfter : String

/-- `handleSubmit` of `ReportForm.tsx`.  Empty location, absent date or
empty email fail the local guard before any network activity.  Any thrown
error (network, HTTP status, JSON parse, incomplete data) lands in the one
`catch` block: generic error toast, no report, fields untouched.  On the
success path the response fields are re-checked for truthiness, the report
is built preferring server-echoed values and the fields are cleared.
`jsParse` is the host `new Date(string)` parser used on the echoed date
strings. -/
def handleSubmit (jsParse : String → Option Int) (st : FormState)
    (net : FetchOutcome) : SubmitResult :=
  if st.location == "" || st.date.isNone || st.email == "" then
    ⟨false, none, .validationError, st.location, st.date, st.email⟩
  else
    match net with
    | .netError => ⟨true, none, .genericError, st.location, st.date, st.email⟩
    | .httpError => ⟨true, none, .genericError, st.location, st.date, st.email⟩
    | .jsonError => ⟨true, none, .genericError, st.location, st.date, st.email⟩
    | .ok r =>
      let hasDateRange := r.dateFrom.isSome && r.dateTo.isSome
      if !truthyS r.location || !truthyS r.email ||
          !truthyS r.urlOfSecurityReport ||
          (!truthyS r.date && !hasDateRange) then
        ⟨true, none, .genericError, st.location, st.date, st.email⟩
      else
        let reportDate : DVal :=
          if hasDateRange then
            .pair ⟨some (.dateObj (jsParse (r.dateFrom.getD ""))),
              some (.dateObj (jsParse (r.dateTo.getD "")))⟩
          else .dateObj (jsParse (r.date.getD ""))
        ⟨true,
          some ⟨r.location.getD "", reportDate, r.email.getD "",
            r.urlOfSecurityReport.getD ""⟩,
          .success, "", none, ""⟩

/-! ### The page-level report list (`Index.tsx`) -/

/-- `handleReportGenerated` of `Index.tsx`:
`setReports(prev => [newReport, ...prevReports])`. -/
def handleReportGenerated (newReport : GeneratedReport)
    (prevReports : List GeneratedReport) : List GeneratedReport :=
  newReport :: prevReports

/-- One submission round trip seen from the page: the form invokes
`onReportGenerated` exactly when `handleSubmit` produced a report, and no
other code path touches the list. -/
def pageStep (jsParse : String → Option Int) (st : FormState)
    (net : FetchOutcome) (reports : List GeneratedReport) :
    List GeneratedReport :=
  match (handleSubmit jsParse st net).report with
  | some r => handleReportGenerated r reports
  | none => reports

/-! ### Documents viewer: fetch-time sorting and client-side filters -/

/-- The loosely-structured metadata bag of a document row. -/
structure DocMeta where
  location : Option String
  type : Option String
  source : Option String
deriving DecidableEq

/-- A row of the hosted `documents` table as the client selects it
(`id, content, metadata`); `content` is optional because the code guards
it (`!content`, `doc.content?.`). -/
structure Document where
  id : Int
  content : Option String
  metadata : Option DocMeta
deriving DecidableEq

/-- Attempt `/dateOfReport:"(\d{4}-\d{2}-\d{2})"/` at one start position;
the capture is the ten-character date text. -/
def tryExtractAt (l : List Char) : Option (List Char) :=
  match dropLit ("dateOfReport:\"".toList) l with
  | none => none
  | some rest =>
    match rest with
    | y1 :: y2 :: y3 :: y4 :: h1 :: m1 :: m2 :: h2 :: d1 :: d2 :: q :: _ =>
      if y1.isDigit && y2.isDigit && y3.isDigit && y4.isDigit &&
          h1 == '-' && m1.isDigit && m2.isDigit && h2 == '-' &&
          d1.isDigit && d2.isDigit && q == '"' then
        some [y1, y2, y3, y4, h1, m1, m2, h2, d1, d2]
      else none
    | _ => none

/-- `extractDateFromContent` of the documents viewer: `null` for a falsy
content, otherwise the first match of the fixed pattern anywhere in the
text. -/
def extractDateFromContent (content : Option String) : Option (List Char) :=
  match content with
  | none => none
  | some s => if s == "" then none else scanMatch tryExtractAt s.toList

/-- The fetch-time comparator of `fetchDocuments`: rows without an
extractable date compare after rows with one, two dateless rows fall back
to identifier descending (`b.id - a.id`), and two dated rows compare by
`new Date(dateB) - new Date(dateA)` (latest first).  On an extracted
string that is not a real calendar date `new Date` gives NaN and
`Array.prototype.sort` leaves the relative order implementation-defined;
the embedding uses 0 there, and the sortedness claim assumes valid
dates. -/
def cmpDoc (a b : Document) : Int :=
  match extractDateFromContent a.content, extractDateFromContent b.content with
  | none, none => b.id - a.id
  | none, some _ => 1
  | some _, none => -1
  | some da, some db =>
    (parseIsoDateMs db).getD 0 - (parseIsoDateMs da).getD 0

/-- The sort relation induced by the comparator: `a` may come before `b`. -/
def docLe (a b : Document) : Prop :=
  cmpDoc a b ≤ 0

instance : DecidableRel docLe := fun a b =>
  inferInstanceAs (Decidable (cmpDoc a b ≤ 0))

/-- The re-sort applied to the fetched rows (`(data || []).sort(...)`);
a stable sort with a consistent comparator, as `Array.prototype.sort`
guarantees. -/
def sortDocuments (docs : List Document) : List Document :=
  List.insertionSort docLe docs

/-- Every extracted date of the document, if any, is a real calendar date
(so its `new Date` time value is not NaN). -/
def validExtract (d : Document) : Bool :=
  match extractDateFromContent d.content with
  | some s => (parseIsoDateMs s).isSome
  | none => true

/-- The ordering the claim states for a pair of displayed rows, `a` before
`b`: a dated row never follows a dateless one, two dated rows are in
date-descending order, two dateless rows in identifier-descending order. -/
def rowBeforeOk (a b : Document) : Bool :=
  match extractDateFromContent a.content, extractDateFromContent b.content with
  | some sa, some sb =>
    match parseIsoDateMs sa, parseIsoDateMs sb with
    | some ta, some tb => tb ≤ ta
    | _, _ => false
  | some _, none => true
  | none, some _ => false
  | none, none => b.id ≤ a.id

/-- The six client-side filter inputs (all free text; an empty string is
falsy, so that filter is inactive). -/
structure Filters where
  location : String
  type : String
  source : String
  content : String
  dateFrom : String
  dateTo : String
deriving DecidableEq

/-- `clearFilters` resets every filter to the empty string. -/
def clearFilters : Filters :=
  ⟨"", "", "", "", "", ""⟩

/-- `field?.toLowerCase().includes(needle.toLowerCase())` with an optional
chain: an absent field is falsy, so the row is dropped. -/
def optIncludes (field : Option String) (needle : String) : Bool :=
  match field with
  | some s => jsIncludes (toLowerList s.toList) (toLowerList needle.toList)
  | none => false

/-- One `if (filters.x) { filtered = filtered.filter(...) }` step. -/
def condFilter (active : Bool) (p : Document → Bool)
    (l : List Document) : List Document :=
  if active then l.filter p else l

/-- The conjunctive filter pipeline of the documents viewer, in source
order: location, type, source, content, then the extracted-date bounds
(string comparisons on the `YYYY-MM-DD` text). -/
def applyFilters (f : Filters) (docs : List Document) : List Document :=
  condFilter (f.dateTo != "")
    (fun d =>
      match extractDateFromContent d.content with
      | some ds => strLeList ds f.dateTo.toList
      | none => false)
    (condFilter (f.dateFrom != "")
      (fun d =>
        match extractDateFromContent d.content with
        | some ds => strLeList f.dateFrom.toList ds
        | none => false)
      (condFilter (f.content != "")
        (fun d => optIncludes d.content f.content)
        (condFilter (f.source != "")
          (fun d => optIncludes (d.metadata.bind fun m => m.source) f.source)
          (condFilter (f.type != "")
            (fun d => optIncludes (d.metadata.bind fun m => m.type) f.type)
            (condFilter (f.location != "")
              (fun d =>
                optIncludes (d.metadata.bind fun m => m.location) f.location)
              docs)))))

end Freshpage

namespace Freshpage

example :
    docsMatch "https://docs.google.com/document/d/XYZ/edit" =
      some ['X', 'Y', 'Z'] := by decide

example :
    resolveDownloadUrl "https://docs.google.com/document/d/XYZ/edit" =
      "https://docs.google.com/document/d/XYZ/export?format=pdf" := by decide

example :
    resolveDownloadUrl "https://drive.google.com/file/d/abc-1_2/view" =
      "https://drive.google.com/uc?export=download&id=abc-1_2" := by decide

example : resolveDownloadUrl "https://example.com/r.pdf" =
    "https://example.com/r.pdf" := by decide

example : parseIsoDateMs ("1970-01-01".toList) = some 0 := by decide

example : parseIsoDateMs ("2025-03-23".toList) = some 1742688000000 := by
  decide

example : parseIsoDateMs ("2025-02-30".toList) = none := by decide

example : fmtYmd 1742688000000 = "2025-03-23" := by decide

example : fmtYmd 0 = "1970-01-01" := by decide

example : stripOrdinal "23rd March 2025" = "23 March 2025" := by decide

example : stripOrdinal "March 1st and 2nd" = "March 1 and 2nd" := by decide

example : sanitizeLocation "Kings Cross, N1" = "Kings_Cross__N1" := by decide

example : lowerDash "Next 7 Days" = "next-7-days" := by decide

example :
    extractDateFromContent (some "report dateOfReport:\"2025-06-07\" end") =
      some ("2025-06-07".toList) := by decide

example : extractDateFromContent (some "dateOfReport: 2025-06-07") = none := by
  decide

/-- C1: For every URL string, download-link resolution applies the two
pattern checks in a fixed priority order: a URL matching the Google Docs
`document/d/{id}/edit` shape resolves to
`https://docs.google.com/document/d/{id}/export?format=pdf` with the same
identifier; otherwise a URL matching the Google Drive `file/d/{id}` shape
resolves to `https://drive.google.com/uc?export=download&id={id}` with the
same identifier; otherwise the original URL is used unchanged.  Both
matchers are total functions into `Option` — `none` on every non-matching
URL, never an exception. -/
theorem downloadUrl_resolution_priority (url : String) :
    (∀ fileId, docsMatch url = some fileId →
      getGoogleDocsPdfExportUrl url =
        some ("https://docs.google.com/document/d/" ++ String.mk fileId ++
          "/export?format=pdf") ∧
      resolveDownloadUrl url =
        "https://docs.google.com/document/d/" ++ String.mk fileId ++
          "/export?format=pdf") ∧
    (docsMatch url = none → ∀ fileId, driveMatch url = some fileId →
      getGoogleDriveDownloadUrl url =
        some ("https://drive.google.com/uc?export=download&id=" ++
          String.mk fileId) ∧
      resolveDownloadUrl url =
        "https://drive.google.com/uc?export=download&id=" ++
          String.mk fileId) ∧
    (docsMatch url = none → driveMatch url = none →
      resolveDownloadUrl url = url) := by
  refine ⟨?_, ?_, ?_⟩
  · intro fileId h
    simp [resolveDownloadUrl, getGoogleDocsPdfExportUrl, h]
  · intro hd fileId h
    simp [resolveDownloadUrl, getGoogleDocsPdfExportUrl,
      getGoogleDriveDownloadUrl, hd, h]
  · intro hd hg
    simp [resolveDownloadUrl, getGoogleDocsPdfExportUrl,
      getGoogleDriveDownloadUrl, hd, hg]

/-- C2: `parseReportDate` first attempts a direct parse of a string date
and on failure retries on the string with its first ordinal suffix (a
digit sequence followed by `st`/`nd`/`rd`/`th`) stripped; in particular
`"23rd March 2025"` is retried as `"23 March 2025"`, so it succeeds
whenever the host parser accepts the stripped form; when both parses fail,
or the value is absent or otherwise unusable, the result is the explicit
invalid marker `none`. -/
theorem parseReportDate_ordinal_retry (jsParse : String → Option Int)
    (s : String) (t : Int) :
    (jsParse s = some t → parseReportDate jsParse (.strVal s) = some t) ∧
    (jsParse s = none →
      parseReportDate jsParse (.strVal s) = jsParse (stripOrdinal s)) ∧
    parseReportDate jsParse .otherVal = none ∧
    (∀ ms, parseReportDate jsParse (.dateVal (some ms)) = some ms) ∧
    parseReportDate jsParse (.dateVal none) = none ∧
    stripOrdinal "23rd March 2025" = "23 March 2025" ∧
    (jsParse "23rd March 2025" = none → jsParse "23 March 2025" = some t →
      parseReportDate jsParse (.strVal "23rd March 2025") = some t) := by
  have hstrip : stripOrdinal "23rd March 2025" = "23 March 2025" := by decide
  refine ⟨?_, ?_, rfl, fun ms => rfl, rfl, hstrip, ?_⟩
  · intro h
    simp [parseReportDate, h]
  · intro h
    simp [parseReportDate, h]
  · intro h1 h2
    simp [parseReportDate, h1, hstrip, h2]

/-- C3 counterexample: a pair object both of whose endpoints are `Date`
instances with NaN time values (Invalid Dates, e.g. produced by
`new Date` on garbage webhook output) is classified as a range by
`isDateRange`, although neither endpoint is a valid instant — refuting
"classifies the value as a range exactly when … both endpoints are valid
instants" at this input. -/
theorem isDateRange_validity_counterexample :
    ¬ (isDateRange (.pair ⟨some (.dateObj none), some (.dateObj none)⟩) =
          true ↔
        validInstantField (some (.dateObj none)) = true ∧
        validInstantField (some (.dateObj none)) = true) := by
  decide

/-- C3 amended: `isDateRange` classifies a value as a range exactly when
it is a pair object carrying both endpoint fields `from` and `to` and both
hold `Date` instances — their being valid instants is not checked, so an
Invalid Date endpoint is accepted.  A pair with only one endpoint present,
or with a non-`Date` endpoint, is still never classified as a range. -/
theorem isDateRange_characterization (v : DVal) :
    isDateRange v = true ↔
      ∃ p, v = .pair p ∧ isDateInstance p.fromField = true ∧
        isDateInstance p.toField = true := by
  cases v with
  | pair p =>
    simp only [isDateRange, Bool.and_eq_true]
    constructor
    · rintro ⟨h1, h2⟩
      exact ⟨p, rfl, h1, h2⟩
    · rintro ⟨p', hp, h1, h2⟩
      cases hp
      exact ⟨h1, h2⟩
  | dateObj ms =>
    simp [isDateRange]
  | strVal s =>
    simp [isDateRange]
  | undef =>
    simp [isDateRange]

/-- C4 counterexample: for a report whose date is the canned string
`"Today"` — from which no valid date can be extracted (`new Date("Today")`
is an Invalid Date, and the filename code does not even attempt a parse) —
the filename token is the lowercased string `"today"`, not the literal
placeholder `"unknown-date"` the claim requires whenever no valid date
could be extracted (nor a `yyyy-MM-dd` rendering). -/
theorem fileName_string_token_counterexample :
    fileName (.strVal "Today") "London" =
      some "security-report-today-London.pdf" ∧
    "security-report-today-London.pdf" ≠
      "security-report-unknown-date-London.pdf" := by
  decide

/-- C4 amended: the download filename is
`security-report-<dateToken>-<sanitizedLocation>.pdf`, where
`sanitizedLocation` replaces every character outside letters, digits,
hyphen and underscore with an underscore, and `dateToken` is: the date
string lowercased with whitespace runs replaced by hyphens when the date
is a non-empty string; the `yyyy-MM-dd` formatting of the `from` endpoint
when it is a pair whose `from` field holds a valid `Date` (an Invalid
`Date` there makes the formatter throw, so no filename is produced);
likewise for a plain `Date` date; and the literal `"unknown-date"` in
every remaining case.  For the scenario date 2025-03-23 and location
`"London"` the filename is `security-report-2025-03-23-London.pdf`. -/
theorem fileName_characterization (loc : String) :
    (∀ s, s ≠ "" → fileName (.strVal s) loc =
      some ("security-report-" ++ lowerDash s ++ "-" ++
        sanitizeLocation loc ++ ".pdf")) ∧
    (∀ ms, fileName (.dateObj (some ms)) loc =
      some ("security-report-" ++ fmtYmd ms ++ "-" ++
        sanitizeLocation loc ++ ".pdf")) ∧
    (∀ p ms, p.fromField = some (.dateObj (some ms)) →
      fileName (.pair p) loc =
        some ("security-report-" ++ fmtYmd ms ++ "-" ++
          sanitizeLocation loc ++ ".pdf")) ∧
    (∀ p, isDateInstance p.fromField = false →
      fileName (.pair p) loc =
        some ("security-report-unknown-date-" ++
          sanitizeLocation loc ++ ".pdf")) ∧
    fileName .undef loc =
      some ("security-report-unknown-date-" ++
        sanitizeLocation loc ++ ".pdf") ∧
    fileName (.strVal "") loc =
      some ("security-report-unknown-date-" ++
        sanitizeLocation loc ++ ".pdf") ∧
    fileName (.dateObj none) loc = none ∧
    (∀ p, p.fromField = some (.dateObj none) →
      fileName (.pair p) loc = none) ∧
    fileName (.dateObj (some (msOfYmd 2025 3 23))) "London" =
      some "security-report-2025-03-23-London.pdf" := by
  refine ⟨?_, ?_, ?_, ?_, rfl, rfl, rfl, ?_, by decide⟩
  · intro s hs
    simp [fileName, formattedDate, hs]
  · intro ms
    rfl
  · intro p ms hp
    simp [fileName, formattedDate, hp]
  · intro p hp
    cases hf : p.fromField with
    | none => simp [fileName, formattedDate, hf]
    | some fld =>
      cases fld with
      | dateObj d =>
        rw [hf] at hp
        simp [isDateInstance] at hp
      | strVal s => simp [fileName, formattedDate, hf]
      | undefVal => simp [fileName, formattedDate, hf]
  · intro p hp
    simp [fileName, formattedDate, hp]

/-- C5: whenever a required field (location, date selection, email) is
empty at submission time, the handler rejects locally: the validation
toast is shown, no network call is performed, no report is created, and
the form fields are left unchanged. -/
theorem handleSubmit_local_validation (jsParse : String → Option Int)
    (st : FormState) (net : FetchOutcome)
    (h : st.location = "" ∨ st.date = none ∨ st.email = "") :
    handleSubmit jsParse st net =
      ⟨false, none, .validationError, st.location, st.date, st.email⟩ := by
  unfold handleSubmit
  rcases h with h | h | h <;> simp [h]

/-- C5 witness: the all-empty form is rejected locally. -/
theorem handleSubmit_local_validation_witness :
    handleSubmit (fun _ => none) ⟨"", none, ""⟩ .netError =
      ⟨false, none, .validationError, "", none, ""⟩ :=
  handleSubmit_local_validation (fun _ => none) ⟨"", none, ""⟩ .netError
    (Or.inl rfl)

/-- C6: a webhook response that parsed as JSON — hence one with a
successful HTTP status — is still treated as a failure whenever any of the
required fields location, email or urlOfSecurityReport is missing: no
report record is created and the generic error message is shown.  In
particular a response missing `urlOfSecurityReport` is always a failure. -/
theorem handleSubmit_missing_fields_failure (jsParse : String → Option Int)
    (st : FormState) (r : WebhookResp)
    (hl : st.location ≠ "") (hd : st.date ≠ none) (he : st.email ≠ "")
    (hr : r.location = none ∨ r.email = none ∨
      r.urlOfSecurityReport = none) :
    (handleSubmit jsParse st (.ok r)).report = none ∧
    (handleSubmit jsParse st (.ok r)).toast = .genericError := by
  have hd' : st.date.isNone = false := by
    cases hdate : st.date with
    | none => exact absurd hdate hd
    | some d => rfl
  unfold handleSubmit
  rcases hr with h | h | h <;> simp [hl, he, hd', h, truthyS]

/-- C6 witness: a valid form whose webhook response echoes location, email
and a date but carries no `urlOfSecurityReport` produces no report and the
generic error. -/
theorem handleSubmit_missing_fields_failure_witness :
    (handleSubmit (fun _ => none)
        ⟨"London", some (.single (some 1742688000000)), "a@b.com"⟩
        (.ok ⟨some "London", some "a@b.com", none, some "2025-03-23",
          none, none⟩)).report = none ∧
    (handleSubmit (fun _ => none)
        ⟨"London", some (.single (some 1742688000000)), "a@b.com"⟩
        (.ok ⟨some "London", some "a@b.com", none, some "2025-03-23",
          none, none⟩)).toast = .genericError :=
  handleSubmit_missing_fields_failure (fun _ => none)
    ⟨"London", some (.single (some 1742688000000)), "a@b.com"⟩
    ⟨some "London", some "a@b.com", none, some "2025-03-23", none, none⟩
    (by decide) (by decide) (by decide) (Or.inr (Or.inr rfl))

/-- Case analysis of one `handleSubmit` run: local rejection, a caught
error, or success — shared by the theorems below. -/
theorem handleSubmit_cases (jsParse : String → Option Int)
    (st : FormState) (net : FetchOutcome) :
    handleSubmit jsParse st net =
      ⟨false, none, .validationError, st.location, st.date, st.email⟩ ∨
    handleSubmit jsParse st net =
      ⟨true, none, .genericError, st.location, st.date, st.email⟩ ∨
    ∃ rep, handleSubmit jsParse st net =
      ⟨true, some rep, .success, "", none, ""⟩ := by
  unfold handleSubmit
  split
  · exact Or.inl rfl
  · cases net with
    | netError => exact Or.inr (Or.inl rfl)
    | httpError => exact Or.inr (Or.inl rfl)
    | jsonError => exact Or.inr (Or.inl rfl)
    | ok r =>
      dsimp only
      split
      · exact Or.inr (Or.inl rfl)
      · exact Or.inr (Or.inr ⟨_, rfl⟩)

/-- C7: the form fields are reset exactly on the success path — whenever
the success toast is shown all three fields are cleared, on any other
outcome (local validation failure, network error, HTTP error, JSON parse
failure, missing response fields) the fields keep their previous values —
and every run ending in the generic error message creates no report. -/
theorem handleSubmit_reset_exactly_on_success (jsParse : String → Option Int)
    (st : FormState) (net : FetchOutcome) :
    ((handleSubmit jsParse st net).toast = .success →
      (handleSubmit jsParse st net).locationAfter = "" ∧
      (handleSubmit jsParse st net).dateAfter = none ∧
      (handleSubmit jsParse st net).emailAfter = "") ∧
    ((handleSubmit jsParse st net).toast ≠ .success →
      (handleSubmit jsParse st net).locationAfter = st.location ∧
      (handleSubmit jsParse st net).dateAfter = st.date ∧
      (handleSubmit jsParse st net).emailAfter = st.email) ∧
    ((handleSubmit jsParse st net).toast = .genericError →
      (handleSubmit jsParse st net).report = none) := by
  rcases handleSubmit_cases jsParse st net with h | h | ⟨rep, h⟩ <;>
    rw [h] <;> simp

/-- C9: the page-level report list is mutated by nothing but a successful
submission: when `handleSubmit` produces a report it is prepended, so the
new list is the new record consed onto the old one — every previously held
record remains, unchanged and in its relative order — and a submission run
producing no report (every non-success outcome) leaves the list
untouched. -/
theorem pageStep_prepend_frame (jsParse : String → Option Int)
    (st : FormState) (net : FetchOutcome)
    (reports : List GeneratedReport) :
    (∀ r, (handleSubmit jsParse st net).report = some r →
      pageStep jsParse st net reports = r :: reports ∧
      (handleSubmit jsParse st net).toast = .success) ∧
    ((handleSubmit jsParse st net).report = none →
      pageStep jsParse st net reports = reports) ∧
    ((handleSubmit jsParse st net).toast ≠ .success →
      pageStep jsParse st net reports = reports) := by
  have hkey : ∀ r, (handleSubmit jsParse st net).report = some r →
      (handleSubmit jsParse st net).toast = .success := by
    intro r hr
    rcases handleSubmit_cases jsParse st net with h | h | ⟨rep, h⟩ <;>
      rw [h] at hr ⊢ <;> simp_all
  refine ⟨?_, ?_, ?_⟩
  · intro r hr
    exact ⟨by simp [pageStep, handleReportGenerated, hr], hkey r hr⟩
  · intro hr
    simp [pageStep, hr]
  · intro ht
    cases hr : (handleSubmit jsParse st net).report with
    | none => simp [pageStep, hr]
    | some r => exact absurd (hkey r hr) ht

/-- The comparator-induced relation is total. -/
theorem docLe_total (a b : Document) : docLe a b ∨ docLe b a := by
  unfold docLe cmpDoc
  cases ha : extractDateFromContent a.content with
  | none =>
    cases hb : extractDateFromContent b.content with
    | none => dsimp only; omega
    | some db => dsimp only; omega
  | some da =>
    cases hb : extractDateFromContent b.content with
    | none => dsimp only; omega
    | some db => dsimp only; omega

/-- The comparator-induced relation is transitive. -/
theorem docLe_trans (a b c : Document) (h1 : docLe a b) (h2 : docLe b c) :
    docLe a c := by
  unfold docLe cmpDoc at h1 h2 ⊢
  cases ha : extractDateFromContent a.content <;>
    cases hb : extractDateFromContent b.content <;>
      cases hc : extractDateFromContent c.content <;>
        rw [ha, hb] at h1 <;> rw [hb, hc] at h2 <;> dsimp only at h1 h2 ⊢ <;>
          omega

instance : IsTotal Document docLe :=
  ⟨docLe_total⟩

instance : IsTrans Document docLe :=
  ⟨docLe_trans⟩

/-- C8: after fetching, in the re-sorted (displayed) document list — given
that every extractable date in the input rows is a real calendar date, so
no comparator result is NaN — every row with an extractable date precedes
every row without one, two rows with dates are in date-descending order
(latest first), and two rows without dates are in identifier-descending
order. -/
theorem sortDocuments_date_order (docs : List Document)
    (h : docs.all validExtract = true) :
    (sortDocuments docs).Pairwise (fun a b => rowBeforeOk a b = true) := by
  have hvalid : ∀ d ∈ sortDocuments docs, validExtract d = true := by
    intro d hd
    have hmem : d ∈ docs :=
      (List.perm_insertionSort docLe docs).mem_iff.mp hd
    exact (List.all_eq_true.mp h) d hmem
  have hsorted : (sortDocuments docs).Pairwise docLe :=
    List.sorted_insertionSort docLe docs
  refine hsorted.imp_of_mem ?_
  intro a b hma hmb hle
  have hva := hvalid a hma
  have hvb := hvalid b hmb
  unfold docLe cmpDoc at hle
  unfold validExtract at hva hvb
  unfold rowBeforeOk
  cases ha : extractDateFromContent a.content with
  | none =>
    cases hb : extractDateFromContent b.content with
    | none =>
      rw [ha, hb] at hle
      dsimp only at hle ⊢
      simp only [decide_eq_true_eq]
      omega
    | some sb =>
      rw [ha, hb] at hle
      dsimp only at hle
      omega
  | some sa =>
    cases hb : extractDateFromContent b.content with
    | none =>
      rfl
    | some sb =>
      rw [ha] at hva
      rw [hb] at hvb
      dsimp only at hva hvb
      obtain ⟨ta, hta⟩ := Option.isSome_iff_exists.mp hva
      obtain ⟨tb, htb⟩ := Option.isSome_iff_exists.mp hvb
      rw [ha, hb] at hle
      dsimp only at hle
      rw [hta, htb] at hle
      simp only [Option.getD_some] at hle
      dsimp only
      rw [hta, htb]
      simp only [decide_eq_true_eq]
      omega

/-- C8 witness: a concrete fetched batch — two dated rows out of
chronological order, one dateless row with a high identifier, one with a
low one — sorts into the claimed shape. -/
theorem sortDocuments_date_order_witness :
    ([⟨5, some "x dateOfReport:\"2024-01-02\" y", none⟩,
      ⟨7, none, none⟩,
      ⟨2, some "dateOfReport:\"2025-06-07\"", none⟩,
      ⟨9, some "no date here", none⟩] : List Document).all validExtract =
        true ∧
    (sortDocuments
      [⟨5, some "x dateOfReport:\"2024-01-02\" y", none⟩,
       ⟨7, none, none⟩,
       ⟨2, some "dateOfReport:\"2025-06-07\"", none⟩,
       ⟨9, some "no date here", none⟩]).Pairwise
        (fun a b => rowBeforeOk a b = true) :=
  ⟨by decide,
    sortDocuments_date_order
      [⟨5, some "x dateOfReport:\"2024-01-02\" y", none⟩,
       ⟨7, none, none⟩,
       ⟨2, some "dateOfReport:\"2025-06-07\"", none⟩,
       ⟨9, some "no date here", none⟩] (by decide)⟩

/-- Each `if (filters.x) filtered = filtered.filter(...)` step removes
rows only. -/
theorem condFilter_sublist (active : Bool) (p : Document → Bool)
    (l : List Document) : List.Sublist (condFilter active p l) l := by
  cases active with
  | false => simp [condFilter]
  | true => simp [condFilter]

/-- C10: for every filter configuration, the filtered document list is an
order-preserving subsequence of the fetched list — each of the six
conjunctive filters only removes rows, never reordering or duplicating
them — and with all six filters empty (the `clearFilters` state) the
filtered list is the full fetched list. -/
theorem applyFilters_sublist (f : Filters) (docs : List Document) :
    List.Sublist (applyFilters f docs) docs ∧
    applyFilters clearFilters docs = docs := by
  constructor
  · exact (condFilter_sublist _ _ _).trans
      ((condFilter_sublist _ _ _).trans
        ((condFilter_sublist _ _ _).trans
          ((condFilter_sublist _ _ _).trans
            ((condFilter_sublist _ _ _).trans
              (condFilter_sublist _ _ _)))))
  · simp [applyFilters, clearFilters, condFilter]

end Freshpage
